import Mathlib

/-!
Shallow embedding of the chunked-transcription core of
`mp4_converter_standalone.py` (VideoToText repository), together with
theorems checking the natural-language specification against it.

Conventions:
* Python floats are modelled as rationals (`ℚ`), so arithmetic is exact.
* External effects (file sizes, probed durations, FFmpeg chunk extraction,
  the Whisper backend, model loading) are oracle parameters.
* Console prints are not modelled; returned values and state are.
-/

namespace VideoToText

/-! ### ProgressTracker (mp4_converter_standalone.py, lines 45-87) -/

/-- State of `ProgressTracker`: `duration`, `current_time`,
`progress_percentage`, `is_running` (lines 48-52). -/
structure ProgressTracker where
  duration : ℚ
  current_time : ℚ
  progress_percentage : ℚ
  running : Bool
deriving DecidableEq

/-- The whitespace characters of the ASCII fragment of Python's `\s` /
`str.strip`. -/
def isPySpace (c : Char) : Bool :=
  c = ' ' || c = '\n' || c = '\t' || c = '\r' || c = '\x0b' || c = '\x0c'

/-- Digit run of a string as a natural number (Python `float("123")` on an
all-digit group). -/
def digitsToNat (l : List Char) : Nat :=
  l.foldl (fun acc c => 10 * acc + (c.toNat - 48)) 0

/-- The literal characters of the substring `time=` that both the containment
check and the regular expression of `parse_progress` (line 72-73) look for. -/
def timeTok : List Char := ['t', 'i', 'm', 'e', '=']

/-- Python `'time=' in line` (line 72). -/
def containsTimeTok : List Char → Bool
  | [] => false
  | c :: rest => timeTok.isPrefixOf (c :: rest) || containsTimeTok rest

/-- Longest digit run at the front of the character list, with the rest
(the greedy matching of a regex group against a follow character that is
not a digit, which never needs backtracking). -/
def spanDigits (l : List Char) : List Char × List Char :=
  (l.takeWhile Char.isDigit, l.dropWhile Char.isDigit)

/-- Attempt the tail of the regex pattern of line 73 at a fixed position:
after the literal `time=`, match the three groups of
`(\d+):(\d+):(\d+\.\d+)`.  Returns the hours digits, minutes digits,
integer-second digits and fractional-second digits. -/
def matchTimeGroups (l : List Char) : Option (Nat × Nat × Nat × List Char) :=
  let p1 := spanDigits l
  if p1.1 = [] then none else
  match p1.2 with
  | ':' :: r2 =>
    let p2 := spanDigits r2
    if p2.1 = [] then none else
    match p2.2 with
    | ':' :: r4 =>
      let p3 := spanDigits r4
      if p3.1 = [] then none else
      match p3.2 with
      | '.' :: r6 =>
        let p4 := spanDigits r6
        if p4.1 = [] then none
        else some (digitsToNat p1.1, digitsToNat p2.1, digitsToNat p3.1, p4.1)
      | _ => none
    | _ => none
  | _ => none

/-- `re.search(r'time=(\d+):(\d+):(\d+\.\d+)', line)` (line 73): try the
pattern at each position from the left, taking the first success. -/
def timeSearch : List Char → Option (Nat × Nat × Nat × List Char)
  | [] => none
  | c :: rest =>
    if timeTok.isPrefixOf (c :: rest) then
      match matchTimeGroups ((c :: rest).drop 5) with
      | some g => some g
      | none => timeSearch rest
    else timeSearch rest

/-- Elapsed seconds from the matched groups (lines 75-78):
`hours*3600 + minutes*60 + float("sint.frac")`. -/
def groupElapsed (g : Nat × Nat × Nat × List Char) : ℚ :=
  (g.1 : ℚ) * 3600 + (g.2.1 : ℚ) * 60 +
    ((g.2.2.1 : ℚ) + (digitsToNat g.2.2.2 : ℚ) / 10 ^ g.2.2.2.length)

/-- The elapsed-time extraction of `parse_progress` (lines 72-78): the
containment check on `time=` followed by the regex search; `none` when the
line carries no parsable elapsed time. -/
def parseElapsed (line : String) : Option ℚ :=
  if containsTimeTok line.toList then (timeSearch line.toList).map groupElapsed
  else none

/-- `ProgressTracker.parse_progress` (lines 70-81): on a parsed elapsed time
set `current_time`, and when `duration > 0` set
`progress_percentage = min(100, current_time / duration * 100)`. -/
def parse_progress (t : ProgressTracker) (line : String) : ProgressTracker :=
  match parseElapsed line with
  | none => t
  | some e =>
    let t1 : ProgressTracker := { t with current_time := e }
    if 0 < t1.duration then
      { t1 with progress_percentage := min 100 (e / t1.duration * 100) }
    else t1

/-- The tracker state installed by `_run_ffmpeg_with_progress` before a
monitored operation starts (lines 447-450): probed duration, zero elapsed,
zero percentage, running. -/
def resetTracker (d : ℚ) : ProgressTracker := ⟨d, 0, 0, true⟩

/-- All intermediate tracker states of the monitoring loop of lines 464-466,
starting from the given state and feeding each line in order. -/
def progressStates : ProgressTracker → List String → List ProgressTracker
  | t, [] => [t]
  | t, l :: ls => t :: progressStates (parse_progress t l) ls

/-! ### AudioSplitter (mp4_converter_standalone.py, lines 90-204) -/

/-- A planned/extracted audio chunk: 0-based index, start offset and end
offset in seconds on the source file's timeline, and whether it was produced
by the copy shortcut of lines 150-154 (`copied = true`) or by the FFmpeg
extraction loop of lines 160-192 (`copied = false`).  The copied chunk is a
byte-for-byte copy of the input, so it spans the whole file. -/
structure Chunk where
  index : Nat
  start : ℚ
  stop : ℚ
  copied : Bool
deriving DecidableEq

/-- `AudioSplitter.calculate_chunk_duration` (lines 117-133), on the success
path of its `try` block.  The file size (MB) and probed duration (seconds)
are oracle inputs.  If `file_size_mb <= max_chunk_size_mb` the whole duration
is returned; otherwise `max(60, total_duration / (size / ceiling) * 0.9)`. -/
def calculate_chunk_duration (max_chunk_size_mb file_size_mb total_duration : ℚ) : ℚ :=
  if file_size_mb ≤ max_chunk_size_mb then total_duration
  else
    let chunks_needed := file_size_mb / max_chunk_size_mb
    let chunk_duration := total_duration / chunks_needed
    max 60 (chunk_duration * (9 / 10))

/-- The `while start_time < total_duration` extraction loop of
`split_audio_file` (lines 160-192).  `extractOk i` is the oracle for whether
the FFmpeg extraction of chunk `i` succeeds; on failure the loop `break`s,
returning only the chunks extracted so far.  `fuel` bounds the recursion and
is chosen large enough by the caller that it never runs out. -/
def splitLoopAux (extractOk : Nat → Bool) (c D : ℚ) :
    Nat → ℚ → Nat → List Chunk
  | 0, _, _ => []
  | fuel + 1, start_time, chunk_index =>
    if start_time < D then
      let end_time := min (start_time + c) D
      if extractOk chunk_index then
        ⟨chunk_index, start_time, end_time, false⟩ ::
          splitLoopAux extractOk c D fuel end_time (chunk_index + 1)
      else []
    else []

/-- `AudioSplitter.split_audio_file` (lines 139-195).  When
`total_duration <= chunk_duration` the input is copied as the single chunk
`chunk_000` (lines 150-154); otherwise the extraction loop runs from offset
`0` with 0-based indices. -/
def split_audio_file (extractOk : Nat → Bool)
    (max_chunk_size_mb file_size_mb total_duration : ℚ) : List Chunk :=
  let chunk_duration := calculate_chunk_duration max_chunk_size_mb file_size_mb total_duration
  if total_duration ≤ chunk_duration then [⟨0, 0, total_duration, true⟩]
  else splitLoopAux extractOk chunk_duration total_duration
    (⌈total_duration / chunk_duration⌉₊ + 1) 0 0

/-- The splitter's mutable state: the temp workspace directory created by
`tempfile.mkdtemp` (line 144), if any.  `cleanup_temp_files` never clears it. -/
structure SplitterState where
  temp_dir : Option String
deriving DecidableEq

/-- `shutil.rmtree` on a filesystem modelled as the list of existing
directories: removes the directory, raising (as `Except.error`) when it does
not exist. -/
def rmtree (fs : List String) (d : String) : Except String (List String) :=
  if d ∈ fs then .ok (fs.filter (fun x => x ≠ d))
  else .error "No such file or directory"

/-- `AudioSplitter.cleanup_temp_files` (lines 197-204): if a temp dir was
created and still exists, remove it; any removal exception is caught and
degraded to a warning (the second component; `none` = no warning, and the
method never raises). -/
def cleanup_temp_files (st : SplitterState) (fs : List String) :
    List String × Option String :=
  match st.temp_dir with
  | none => (fs, none)
  | some d =>
    if d ∈ fs then
      match rmtree fs d with
      | .ok fs2 => (fs2, none)
      | .error e => (fs, some ("Warning: Could not clean up temp files: " ++ e))
    else (fs, none)

/-! ### WhisperTranscriber (mp4_converter_standalone.py, lines 207-431) -/

/-- One Whisper segment: start/end offsets in seconds and its text. -/
structure Segment where
  start : ℚ
  stop : ℚ
  text : String
deriving DecidableEq

/-- The dict returned by `model.transcribe` / `transcribe_chunk`: overall
text plus the segment list. -/
structure WhisperResult where
  text : String
  segments : List Segment
deriving DecidableEq

/-- The inference backend as an oracle keyed by chunk index (chunk files are
opaque handles produced by the splitter in index order, so the index
identifies the file).  `Except.error` models `model.transcribe` raising. -/
abbrev Backend := Nat → Except String WhisperResult

/-- Python `str.strip()`. -/
def pyStrip (s : String) : String :=
  String.mk (((s.toList.dropWhile isPySpace).reverse.dropWhile isPySpace).reverse)

/-- Python `s.replace(tgt, "")` for a non-empty `tgt`: erase every
(left-to-right, non-overlapping) occurrence.  Structural fuel recursion; the
callers pass `fuel = s.length`, which suffices because every step consumes at
least one character. -/
def eraseAllFuel (tgt : List Char) : Nat → List Char → List Char
  | 0, s => s
  | _ + 1, [] => []
  | fuel + 1, c :: rest =>
    if tgt.isPrefixOf (c :: rest) then eraseAllFuel tgt fuel ((c :: rest).drop tgt.length)
    else c :: eraseAllFuel tgt fuel rest

/-- Python `s.replace(tgt, "")` on strings (all phrase targets in the source
are non-empty). -/
def pyReplaceEmpty (s tgt : String) : String :=
  String.mk (eraseAllFuel tgt.toList s.toList.length s.toList)

/-- Python `re.sub(r'\s+', ' ', s)`: collapse each maximal whitespace run to
a single space.  The boolean records whether the previous character was part
of a whitespace run. -/
def collapseWsAux : Bool → List Char → List Char
  | _, [] => []
  | prevSpace, c :: rest =>
    if isPySpace c then
      if prevSpace then collapseWsAux true rest
      else ' ' :: collapseWsAux true rest
    else c :: collapseWsAux false rest

/-- The prompt-contamination phrases of lines 310-315. -/
def prompt_phrases : List String :=
  ["한국어 음성을 정확하게 인식해주세요.", "안녕하세요.",
   "한국어 음성을 정확하게 인식해주세요", "안녕하세요"]

/-- The subtitle-hallucination phrases of lines 318-331. -/
def subtitle_hallucinations : List String :=
  ["자막제공자", "자막 제공자", "자막제공", "자막 제공", "구독", "좋아요", "알림",
   "구독과 좋아요", "시청해주셔서 감사합니다", "채널 구독", "Subscribe", "Like"]

/-- The text clean-up of `transcribe_chunk` (lines 305-342): strip each
unwanted phrase (with a `strip()` after every replacement), then collapse
repeated whitespace and strip. -/
def cleanText (t : String) : String :=
  let all_unwanted := prompt_phrases ++ subtitle_hallucinations
  let t1 := all_unwanted.foldl (fun acc p => pyStrip (pyReplaceEmpty acc p)) t
  pyStrip (String.mk (collapseWsAux false t1.toList))

/-- The inline error marker of line 348:
`f"[Error transcribing chunk {chunk_index + 1}: {e}]"`. -/
def errorMarker (chunk_index : Nat) (e : String) : String :=
  "[Error transcribing chunk " ++ toString (chunk_index + 1) ++ ": " ++ e ++ "]"

/-- `WhisperTranscriber.transcribe_chunk` (lines 266-348): on success, shift
every segment by `start_time` when `start_time > 0` (lines 299-303) and clean
the text (lines 305-342); on any exception return the inline error marker
with an empty segment list (lines 346-348). -/
def transcribe_chunk (backend : Backend) (chunk_index : Nat) (start_time : ℚ) :
    WhisperResult :=
  match backend chunk_index with
  | .error e => ⟨errorMarker chunk_index e, []⟩
  | .ok result =>
    let segs :=
      if 0 < start_time then
        result.segments.map fun s =>
          { s with start := s.start + start_time, stop := s.stop + start_time }
      else result.segments
    ⟨cleanText result.text, segs⟩

/-- `WhisperTranscriber.transcribe_chunks` (lines 350-369): ensure the model
is loaded (`loadOk` models `load_model`, which can raise), then transcribe
chunk `i` with `start_time = i * chunk_duration` (lines 360-362). -/
def transcribe_chunks (backend : Backend) (loadOk : Except String Unit)
    (numChunks : Nat) (chunk_duration : ℚ) : Except String (List WhisperResult) :=
  match loadOk with
  | .error e => .error e
  | .ok _ =>
    .ok ((List.range numChunks).map fun i =>
      transcribe_chunk backend i ((i : ℚ) * chunk_duration))

/-- The per-result pieces collected by `merge_transcripts` (lines 373-381):
strip each chunk text, skip empty ones, and put a `"\n"` separator element
before every non-first non-empty piece of a multi-chunk result. -/
def mergeParts (n : Nat) : Nat → List WhisperResult → List String
  | _, [] => []
  | i, r :: rs =>
    let t := pyStrip r.text
    (if t ≠ "" then (if 1 < n ∧ 0 < i then ["\n"] else []) ++ [t] else []) ++
      mergeParts n (i + 1) rs

/-- `WhisperTranscriber.merge_transcripts` (lines 371-383):
`" ".join(parts).strip()`. -/
def merge_transcripts (results : List WhisperResult) : String :=
  pyStrip (String.intercalate " " (mergeParts results.length 0 results))

/-- The chunk-result computation inside `transcribe_audio_file`
(lines 385-407): split with the default 20 MB ceiling (line 396), set
`chunk_duration = total_duration / len(chunk_files)` when there is more than
one chunk and `0` otherwise (line 404), and transcribe every chunk. -/
def pipeline_chunk_results (backend : Backend) (loadOk : Except String Unit)
    (extractOk : Nat → Bool) (max_chunk_size_mb file_size_mb total_duration : ℚ) :
    Except String (List WhisperResult) :=
  let chunk_files := split_audio_file extractOk max_chunk_size_mb file_size_mb total_duration
  let n := chunk_files.length
  let chunk_duration := if 1 < n then total_duration / (n : ℚ) else 0
  transcribe_chunks backend loadOk n chunk_duration

/-- `WhisperTranscriber.transcribe_audio_file` (lines 385-431): split,
transcribe, merge; the merged transcript is the written artifact.  The only
modelled exception source is model loading; chunk extraction and chunk
transcription failures never raise (the splitter `break`s and
`transcribe_chunk` catches everything). -/
def transcribe_audio_file (backend : Backend) (loadOk : Except String Unit)
    (extractOk : Nat → Bool) (file_size_mb total_duration : ℚ) :
    Except String String :=
  match pipeline_chunk_results backend loadOk extractOk 20 file_size_mb total_duration with
  | .error e => .error e
  | .ok results => .ok (merge_transcripts results)

/-- The batch accounting of lines 1142-1201: a file increments
`successful_conversions` exactly when its processing raises no exception;
with the transcription pipeline as the processing step, the file counts as a
success iff `transcribe_audio_file` returns without raising. -/
def file_counted_success (backend : Backend) (loadOk : Except String Unit)
    (extractOk : Nat → Bool) (file_size_mb total_duration : ℚ) : Bool :=
  match transcribe_audio_file backend loadOk extractOk file_size_mb total_duration with
  | .ok _ => true
  | .error _ => false

/-! ### Concrete-scenario evaluation helpers -/

/-- Planner value in the spec scenario: 60 MB file at the 20 MB ceiling,
3600 s long. -/
lemma calc_eval_scenario : calculate_chunk_duration 20 60 3600 = 1080 := by
  norm_num [calculate_chunk_duration]

/-- Split of the spec scenario file when every extraction succeeds. -/
lemma split_eval_scenario : split_audio_file (fun _ => true) 20 60 3600 =
    [⟨0, 0, 1080, false⟩, ⟨1, 1080, 2160, false⟩, ⟨2, 2160, 3240, false⟩,
     ⟨3, 3240, 3600, false⟩] := by
  have hceil : ⌈(3600 : ℚ) / 1080⌉₊ = 4 := by
    rw [show (3600 : ℚ) / 1080 = 10 / 3 by norm_num, Nat.ceil_eq_iff (by norm_num)]
    norm_num
  simp only [split_audio_file, calc_eval_scenario]
  rw [if_neg (by norm_num : ¬ (3600 : ℚ) ≤ 1080), hceil]
  norm_num [splitLoopAux]

/-- Split of the spec scenario file when the extraction of chunk 1 fails:
the loop stops after chunk 0. -/
lemma split_eval_fail1 : split_audio_file (fun j => j != 1) 20 60 3600 =
    [⟨0, 0, 1080, false⟩] := by
  have hceil : ⌈(3600 : ℚ) / 1080⌉₊ = 4 := by
    rw [show (3600 : ℚ) / 1080 = 10 / 3 by norm_num, Nat.ceil_eq_iff (by norm_num)]
    norm_num
  simp only [split_audio_file, calc_eval_scenario]
  rw [if_neg (by norm_num : ¬ (3600 : ℚ) ≤ 1080), hceil]
  norm_num [splitLoopAux]

/-! ### Theorems: chunk planning (C5, C6, C9) -/

/-- C5: for every file whose size exceeds the ceiling, the planned chunk
duration is `max(60, (D / (size/ceiling)) * 0.9)`; and in the spec scenario
of a 60-minute file at three times the 20 MB ceiling, the planned chunk
duration is 1080 s = 18 minutes, the split yields 4 chunks of which the
first three have duration 1080 s and the last 360 s, strictly shorter. -/
theorem chunk_duration_formula_and_scenario
    (ceiling size D : ℚ) (h : ¬ size ≤ ceiling) :
    calculate_chunk_duration ceiling size D = max 60 (D / (size / ceiling) * (9 / 10)) ∧
    calculate_chunk_duration 20 60 3600 = 18 * 60 ∧
    (split_audio_file (fun _ => true) 20 60 3600).map
      (fun c => (c.start, c.stop)) = [(0, 1080), (1080, 2160), (2160, 3240), (3240, 3600)] ∧
    ((3600 : ℚ) - 3240 < 1080) := by
  refine ⟨?_, by rw [calc_eval_scenario]; norm_num, by rw [split_eval_scenario]; rfl,
    by norm_num⟩
  simp [calculate_chunk_duration, h]

/-- Witness for `chunk_duration_formula_and_scenario` at the scenario input
(size 60 MB, ceiling 20 MB, duration 3600 s). -/
theorem chunk_duration_formula_witness :
    calculate_chunk_duration 20 60 3600 = max 60 (3600 / (60 / 20) * (9 / 10)) :=
  (chunk_duration_formula_and_scenario 20 60 3600 (by norm_num)).1

/-- C6: whenever the file size is at most the ceiling, splitting yields
exactly the single copied chunk spanning the whole duration; in particular
at 45 s the single chunk spans exactly 45 s (no 60 s clamp, never zero
chunks). -/
theorem single_chunk_when_size_below_ceiling
    (extractOk : Nat → Bool) (ceiling size D : ℚ) (h : size ≤ ceiling) :
    split_audio_file extractOk ceiling size D = [⟨0, 0, D, true⟩] ∧
    (split_audio_file extractOk ceiling size 45).length = 1 ∧
    (split_audio_file extractOk ceiling size 45).map (fun c => c.stop - c.start) =
      [(45 : ℚ)] := by
  have key : ∀ D' : ℚ, split_audio_file extractOk ceiling size D' = [⟨0, 0, D', true⟩] := by
    intro D'
    simp [split_audio_file, calculate_chunk_duration, h]
  refine ⟨key D, ?_, ?_⟩ <;> rw [key 45] <;> norm_num

/-- Witness for `single_chunk_when_size_below_ceiling` at size 10 MB with
ceiling 20 MB and duration 45 s. -/
theorem single_chunk_witness :
    split_audio_file (fun _ => true) 20 10 45 = [⟨0, 0, 45, true⟩] :=
  (single_chunk_when_size_below_ceiling (fun _ => true) 20 10 45 (by norm_num)).1

/-- C9: when the probed duration is the unknown sentinel 0, splitting always
returns the single copied chunk, whatever the size and ceiling: the planned
chunk duration is either `0` (size within the ceiling) or the 60 s floor,
and `0 ≤ ` both, so the copy shortcut fires. -/
theorem zero_duration_single_copied_chunk
    (extractOk : Nat → Bool) (ceiling size : ℚ) :
    split_audio_file extractOk ceiling size 0 = [⟨0, 0, 0, true⟩] := by
  by_cases h : size ≤ ceiling
  · simp [split_audio_file, calculate_chunk_duration, h]
  · have h60 : (0 : ℚ) ≤ max 60 (0 / (size / ceiling) * (9 / 10)) :=
      le_trans (by norm_num) (le_max_left _ _)
    simp [split_audio_file, calculate_chunk_duration, h, h60]

/-! ### Theorems: cleanup idempotence (C8) -/

/-- C8: cleanup of the splitter's temp workspace is idempotent and silent:
one call reports no warning, a second call on the resulting filesystem
reports no warning and changes nothing, and when the workspace directory is
already absent the call leaves the filesystem unchanged with no warning. -/
theorem cleanup_idempotent (st : SplitterState) (fs : List String) :
    (cleanup_temp_files st fs).2 = none ∧
    (cleanup_temp_files st (cleanup_temp_files st fs).1).2 = none ∧
    (cleanup_temp_files st (cleanup_temp_files st fs).1).1 = (cleanup_temp_files st fs).1 ∧
    (∀ d, st.temp_dir = some d → d ∉ fs → cleanup_temp_files st fs = (fs, none)) := by
  obtain ⟨d⟩ := st
  cases d with
  | none => simp [cleanup_temp_files]
  | some d =>
    by_cases hmem : d ∈ fs
    · have hnot : d ∉ fs.filter (fun x => x ≠ d) := by
        intro hc
        simpa using (List.mem_filter.mp hc).2
      refine ⟨?_, ?_, ?_, ?_⟩
      · simp [cleanup_temp_files, rmtree, hmem]
      · simp [cleanup_temp_files, rmtree, hmem, hnot]
      · simp [cleanup_temp_files, rmtree, hmem, hnot]
      · intro d' hd' hnd
        rw [Option.some.injEq] at hd'
        subst hd'
        exact absurd hmem hnd
    · refine ⟨?_, ?_, ?_, ?_⟩
      · simp [cleanup_temp_files, hmem]
      · simp [cleanup_temp_files, hmem]
      · simp [cleanup_temp_files, hmem]
      · intro d' hd' _
        rw [Option.some.injEq] at hd'
        subst hd'
        simp [cleanup_temp_files, hmem]

/-- Witness for `cleanup_idempotent`: cleaning up when the workspace
directory is already gone leaves the filesystem unchanged, no warning. -/
theorem cleanup_idempotent_witness :
    cleanup_temp_files ⟨some "audio_chunks_x"⟩ ["other"] = (["other"], none) :=
  ((cleanup_idempotent ⟨some "audio_chunks_x"⟩ ["other"]).2.2.2) "audio_chunks_x" rfl
    (by decide)

/-! ### Theorems: progress parsing frame effect (C10) -/

/-- C10: a line without the substring `time=`, or one where the regex does
not match, leaves the whole tracker state unchanged; and whatever the line,
when the tracked duration is not positive the percentage field is never
modified. -/
theorem parse_progress_frame (t : ProgressTracker) (line : String) :
    ((containsTimeTok line.toList = false ∨ timeSearch line.toList = none) →
      parse_progress t line = t) ∧
    (¬ 0 < t.duration →
      (parse_progress t line).progress_percentage = t.progress_percentage) := by
  constructor
  · intro h
    have hnone : parseElapsed line = none := by
      unfold parseElapsed
      rcases h with h | h
      · rw [h]
        simp
      · rw [h]
        simp
    simp [parse_progress, hnone]
  · intro hd
    unfold parse_progress
    cases hpe : parseElapsed line with
    | none => rfl
    | some e => simp [hd]

/-- Witness for `parse_progress_frame`: a non-matching line leaves a concrete
tracker untouched, and a matching line under a non-positive duration leaves
the percentage untouched. -/
theorem parse_progress_frame_witness :
    parse_progress ⟨0, 3, 42, true⟩ "frame= 100 fps" = ⟨0, 3, 42, true⟩ ∧
    (parse_progress ⟨0, 3, 42, true⟩ "time=00:00:09.00 x").progress_percentage = 42 :=
  ⟨(parse_progress_frame ⟨0, 3, 42, true⟩ "frame= 100 fps").1 (Or.inl (by decide)),
   (parse_progress_frame ⟨0, 3, 42, true⟩ "time=00:00:09.00 x").2 (by norm_num)⟩

/-! ### Theorems: chunk partition (C3) and extraction failure (C2) -/

/-- The extraction loop does nothing once the start offset has reached the
total duration. -/
lemma splitLoopAux_nil (extractOk : Nat → Bool) (c D : ℚ) (fuel : Nat) (s : ℚ) (i : Nat)
    (h : ¬ s < D) : splitLoopAux extractOk c D fuel s i = [] := by
  cases fuel with
  | zero => rfl
  | succ f => simp [splitLoopAux, h]

/-- Invariant of the extraction loop when every extraction succeeds and the
fuel is sufficient: the produced chunks are non-empty, start at the loop's
start offset, end at the total duration, are adjacent (each chunk's end is
the next chunk's start) and carry contiguous indices from the loop's first
index. -/
lemma splitLoopAux_ok_spec (extractOk : Nat → Bool) (c D : ℚ)
    (hok : ∀ i, extractOk i = true) :
    ∀ (fuel : Nat) (s : ℚ) (i : Nat), s < D → D ≤ s + fuel * c →
      splitLoopAux extractOk c D fuel s i ≠ [] ∧
      (splitLoopAux extractOk c D fuel s i).head?.map Chunk.start = some s ∧
      (splitLoopAux extractOk c D fuel s i).getLast?.map Chunk.stop = some D ∧
      List.Chain' (fun a b => a.stop = b.start) (splitLoopAux extractOk c D fuel s i) ∧
      (splitLoopAux extractOk c D fuel s i).map Chunk.index =
        List.range' i (splitLoopAux extractOk c D fuel s i).length := by
  intro fuel
  induction fuel with
  | zero =>
    intro s i hs hD
    exfalso
    rw [Nat.cast_zero, zero_mul, add_zero] at hD
    exact absurd (lt_of_lt_of_le hs hD) (lt_irrefl _)
  | succ f ih =>
    intro s i hs hD
    rw [splitLoopAux, if_pos hs, hok i, if_pos rfl]
    by_cases hstep : s + c < D
    · have hmin : min (s + c) D = s + c := min_eq_left (le_of_lt hstep)
      have hD' : D ≤ s + c + (f : ℚ) * c := by
        push_cast at hD
        linarith
      obtain ⟨hne, hhead, hlast, hchain, hidx⟩ := ih (s + c) (i + 1) hstep hD'
      rw [hmin]
      obtain ⟨x, xs, hcons⟩ := List.exists_cons_of_ne_nil hne
      refine ⟨List.cons_ne_nil _ _, by simp, ?_, ?_, ?_⟩
      · rw [hcons, List.getLast?_cons_cons, ← hcons]
        exact hlast
      · refine List.chain'_cons'.mpr ⟨?_, hchain⟩
        intro y hy
        have : (Chunk.start <$> (splitLoopAux extractOk c D f (s + c) (i + 1)).head?) =
            some (s + c) := hhead
        rw [hcons] at hy this
        simp at hy this
        rw [← hy, this]
      · simp only [List.map_cons, List.length_cons, hidx, List.range'_succ]
    · have hmin : min (s + c) D = D := min_eq_right (not_lt.mp hstep)
      rw [hmin, splitLoopAux_nil _ _ _ _ _ _ (lt_irrefl D)]
      refine ⟨List.cons_ne_nil _ _, by simp, by simp, List.chain'_singleton _, by simp⟩

/-- C3: for every positive total duration, when no extraction fails the
chunk list returned by `split_audio_file` partitions `[0, D)` exactly:
it is non-empty, the first chunk starts at 0, consecutive chunks share their
end/start offsets, the last chunk ends at `D`, and the indices are 0-based
and contiguous. -/
theorem chunks_partition (extractOk : Nat → Bool) (ceiling size D : ℚ)
    (hD : 0 < D) (hok : ∀ i, extractOk i = true) :
    split_audio_file extractOk ceiling size D ≠ [] ∧
    (split_audio_file extractOk ceiling size D).head?.map Chunk.start = some 0 ∧
    (split_audio_file extractOk ceiling size D).getLast?.map Chunk.stop = some D ∧
    List.Chain' (fun a b => a.stop = b.start) (split_audio_file extractOk ceiling size D) ∧
    (split_audio_file extractOk ceiling size D).map Chunk.index =
      List.range (split_audio_file extractOk ceiling size D).length := by
  by_cases hcopy : D ≤ calculate_chunk_duration ceiling size D
  · simp only [split_audio_file, if_pos hcopy]
    refine ⟨List.cons_ne_nil _ _, by simp, by simp, List.chain'_singleton _, by rfl⟩
  · have hc : 0 < calculate_chunk_duration ceiling size D := by
      unfold calculate_chunk_duration
      by_cases hsz : size ≤ ceiling
      · rw [if_pos hsz]
        exact hD
      · rw [if_neg hsz]
        exact lt_of_lt_of_le (by norm_num) (le_max_left _ _)
    set c := calculate_chunk_duration ceiling size D with hcdef
    have hfuel : D ≤ 0 + ((⌈D / c⌉₊ + 1 : ℕ) : ℚ) * c := by
      have h1 : D / c ≤ (⌈D / c⌉₊ : ℚ) := Nat.le_ceil _
      rw [div_le_iff₀ hc] at h1
      have h2 : (⌈D / c⌉₊ : ℚ) * c ≤ ((⌈D / c⌉₊ : ℚ) + 1) * c := by nlinarith
      push_cast
      linarith
    have := splitLoopAux_ok_spec extractOk c D hok (⌈D / c⌉₊ + 1) 0 0 hD hfuel
    simp only [split_audio_file, ← hcdef, if_neg hcopy]
    rw [← List.range_eq_range'] at this
    exact this

/-- Witness for `chunks_partition` at the concrete 60 MB / 3600 s input. -/
theorem chunks_partition_witness :
    split_audio_file (fun _ => true) 20 60 3600 ≠ [] ∧
    (split_audio_file (fun _ => true) 20 60 3600).head?.map Chunk.start = some 0 ∧
    (split_audio_file (fun _ => true) 20 60 3600).getLast?.map Chunk.stop = some 3600 ∧
    List.Chain' (fun a b => a.stop = b.start) (split_audio_file (fun _ => true) 20 60 3600) ∧
    (split_audio_file (fun _ => true) 20 60 3600).map Chunk.index =
      List.range (split_audio_file (fun _ => true) 20 60 3600).length :=
  chunks_partition (fun _ => true) 20 60 3600 (by norm_num) (fun _ => rfl)

/-- When the extraction of chunk `i + m` is the first to fail (and the start
offset of that chunk is still below the total duration), the loop returns
exactly the `m` chunks before it, then breaks. -/
lemma splitLoopAux_fail_spec (extractOk : Nat → Bool) (c D : ℚ) :
    ∀ (m fuel : Nat) (s : ℚ) (i : Nat),
      (∀ j, j < m → extractOk (i + j) = true) → extractOk (i + m) = false →
      s + (m : ℚ) * c < D → D ≤ s + (fuel : ℚ) * c → 0 < c →
      (splitLoopAux extractOk c D fuel s i).map Chunk.index = List.range' i m := by
  intro m
  induction m with
  | zero =>
    intro fuel s i _ hfail hsm hfuel hc
    rw [Nat.cast_zero, zero_mul, add_zero] at hsm
    rw [Nat.add_zero] at hfail
    cases fuel with
    | zero =>
      exfalso
      rw [Nat.cast_zero, zero_mul, add_zero] at hfuel
      exact absurd (lt_of_lt_of_le hsm hfuel) (lt_irrefl _)
    | succ f =>
      rw [splitLoopAux, if_pos hsm, hfail]
      simp
  | succ m ih =>
    intro fuel s i hprev hfail hsm hfuel hc
    have hmc : (0 : ℚ) ≤ (m : ℚ) * c := by positivity
    have hs : s < D := by
      push_cast at hsm
      nlinarith
    have hstep : s + c < D := by
      push_cast at hsm
      nlinarith
    cases fuel with
    | zero =>
      exfalso
      rw [Nat.cast_zero, zero_mul, add_zero] at hfuel
      exact absurd (lt_of_lt_of_le hs hfuel) (lt_irrefl _)
    | succ f =>
      have h0 : extractOk i = true := by
        have := hprev 0 (Nat.succ_pos m)
        rwa [Nat.add_zero] at this
      rw [splitLoopAux, if_pos hs, h0, if_pos rfl,
        min_eq_left (le_of_lt hstep)]
      have hprev' : ∀ j, j < m → extractOk (i + 1 + j) = true := by
        intro j hj
        have := hprev (j + 1) (by omega)
        rwa [show i + (j + 1) = i + 1 + j by omega] at this
      have hfail' : extractOk (i + 1 + m) = false := by
        rwa [show i + 1 + m = i + (m + 1) by omega]
      have hsm' : s + c + (m : ℚ) * c < D := by
        push_cast at hsm
        linarith
      have hfuel' : D ≤ s + c + (f : ℚ) * c := by
        push_cast at hfuel
        linarith
      rw [List.map_cons, ih f (s + c) (i + 1) hprev' hfail' hsm' hfuel' hc,
        List.range'_succ]

/-- C2 (amended): when the extraction of chunk `i` fails (all earlier ones
succeeding, with chunk `i` still inside the planned range), `split_audio_file`
stops extracting and returns exactly the partial chunk list 0..i-1 — but no
error reaches the caller: the return value is a plain list, the partial
chunks are transcribed, and the file still counts as a batch success. -/
theorem split_failure_swallowed (extractOk : Nat → Bool) (backend : Backend)
    (size D : ℚ) (i : Nat)
    (hfail : extractOk i = false) (hprev : ∀ j, j < i → extractOk j = true)
    (hchunked : ¬ D ≤ calculate_chunk_duration 20 size D)
    (hreach : (i : ℚ) * calculate_chunk_duration 20 size D < D) :
    (split_audio_file extractOk 20 size D).map Chunk.index = List.range i ∧
    file_counted_success backend (.ok ()) extractOk size D = true := by
  have hc : 0 < calculate_chunk_duration 20 size D := by
    unfold calculate_chunk_duration
    by_cases hsz : size ≤ 20
    · exfalso
      apply hchunked
      unfold calculate_chunk_duration
      rw [if_pos hsz]
    · rw [if_neg hsz]
      exact lt_of_lt_of_le (by norm_num) (le_max_left _ _)
  set c := calculate_chunk_duration 20 size D with hcdef
  have hfuel : D ≤ 0 + ((⌈D / c⌉₊ + 1 : ℕ) : ℚ) * c := by
    have h1 : D / c ≤ (⌈D / c⌉₊ : ℚ) := Nat.le_ceil _
    rw [div_le_iff₀ hc] at h1
    push_cast
    nlinarith
  constructor
  · have := splitLoopAux_fail_spec extractOk c D i (⌈D / c⌉₊ + 1) 0 0
      (fun j hj => by rw [Nat.zero_add]; exact hprev j hj)
      (by rw [Nat.zero_add]; exact hfail)
      (by rw [zero_add]; exact hreach) hfuel hc
    simp only [split_audio_file, ← hcdef, if_neg hchunked]
    rw [this, ← List.range_eq_range']
  · simp [file_counted_success, transcribe_audio_file, pipeline_chunk_results,
      transcribe_chunks]

/-- C2 counterexample: in the scenario of a 60 MB / 3600 s file (4 planned
chunks) whose chunk-1 extraction fails, the splitter returns a 1-chunk
partial list and the file is nevertheless counted as a success — the failure
is not reported as an error for that file, contradicting the claim. -/
theorem split_failure_not_reported :
    (split_audio_file (fun _ => true) 20 60 3600).length = 4 ∧
    (split_audio_file (fun j => j != 1) 20 60 3600).length = 1 ∧
    file_counted_success (fun _ => .ok ⟨"t", []⟩) (.ok ()) (fun j => j != 1) 60 3600 = true := by
  refine ⟨by rw [split_eval_scenario]; rfl, by rw [split_eval_fail1]; rfl, ?_⟩
  simp [file_counted_success, transcribe_audio_file, pipeline_chunk_results,
    transcribe_chunks]

/-- Witness for `split_failure_swallowed` at the concrete scenario input. -/
theorem split_failure_swallowed_witness :
    (split_audio_file (fun j => j != 1) 20 60 3600).map Chunk.index = List.range 1 ∧
    file_counted_success (fun _ => Except.ok ⟨"t", []⟩) (.ok ()) (fun j => j != 1) 60 3600 = true :=
  split_failure_swallowed (fun j => j != 1) (fun _ => Except.ok ⟨"t", []⟩) 60 3600 1 rfl
    (by
      intro j hj
      have hj0 : j = 0 := by omega
      rw [hj0]
      rfl)
    (by rw [calc_eval_scenario]; norm_num)
    (by rw [calc_eval_scenario]; norm_num)

/-- Every elapsed value built from matched digit groups is non-negative. -/
lemma groupElapsed_nonneg (g : Nat × Nat × Nat × List Char) : 0 ≤ groupElapsed g := by
  unfold groupElapsed
  positivity

/-- Every parsed elapsed time is non-negative. -/
lemma parseElapsed_nonneg {line : String} {e : ℚ} (h : parseElapsed line = some e) :
    0 ≤ e := by
  unfold parseElapsed at h
  by_cases hct : containsTimeTok line.toList
  · rw [if_pos hct] at h
    obtain ⟨g, _, hge⟩ := Option.map_eq_some'.mp h
    rw [← hge]
    exact groupElapsed_nonneg g
  · rw [if_neg hct] at h
    exact absurd h (Option.some_ne_none e).symm

/-- `parse_progress` on an unparsable line is the identity. -/
lemma parse_progress_of_none {line : String} (t : ProgressTracker)
    (h : parseElapsed line = none) : parse_progress t line = t := by
  simp [parse_progress, h]

/-- `parse_progress` on a parsed elapsed time `e`: the elapsed position
becomes `e` and, when the duration is positive, the percentage becomes
`min 100 (e / duration * 100)`; otherwise the percentage is untouched. -/
lemma parse_progress_of_some {line : String} {e : ℚ} (t : ProgressTracker)
    (h : parseElapsed line = some e) :
    parse_progress t line =
      if 0 < t.duration then
        ⟨t.duration, e, min 100 (e / t.duration * 100), t.running⟩
      else ⟨t.duration, e, t.progress_percentage, t.running⟩ := by
  simp only [parse_progress, h]

/-- The duration field is never modified by `parse_progress`. -/
lemma parse_progress_duration (t : ProgressTracker) (line : String) :
    (parse_progress t line).duration = t.duration := by
  cases h : parseElapsed line with
  | none => rw [parse_progress_of_none t h]
  | some e =>
    rw [parse_progress_of_some t h]
    by_cases hd : 0 < t.duration
    · rw [if_pos hd]
    · rw [if_neg hd]

/-- The first state of `progressStates` is the initial tracker. -/
lemma progressStates_head (t : ProgressTracker) (lines : List String) :
    (progressStates t lines).head? = some t := by
  cases lines with
  | nil => rfl
  | cons l ls => rfl

/-- When the duration is not positive, every state of the monitoring loop
keeps the initial percentage. -/
lemma progressStates_pct_const :
    ∀ (lines : List String) (t : ProgressTracker), ¬ 0 < t.duration →
      ∀ s ∈ progressStates t lines, s.progress_percentage = t.progress_percentage := by
  intro lines
  induction lines with
  | nil =>
    intro t _ s hs
    rw [progressStates] at hs
    rw [List.mem_singleton.mp hs]
  | cons l ls ih =>
    intro t hd s hs
    rw [progressStates, List.mem_cons] at hs
    rcases hs with hs | hs
    · rw [hs]
    · have hd' : ¬ 0 < (parse_progress t l).duration := by
        rw [parse_progress_duration]
        exact hd
      have hpct : (parse_progress t l).progress_percentage = t.progress_percentage := by
        cases h : parseElapsed l with
        | none => rw [parse_progress_of_none t h]
        | some e =>
          rw [parse_progress_of_some t h, if_neg hd]
      rw [← hpct]
      exact ih (parse_progress t l) hd' s hs

/-- Invariant of the monitoring loop: if the tracker's percentage is within
`[0, 100]`, bounded by the clamped ratio of its elapsed position, and the
elapsed position chains below the parsed elapsed times still to come, then
every state keeps the percentage in `[0, 100]` and the percentages are
monotonically non-decreasing. -/
lemma progressStates_spec :
    ∀ (lines : List String) (t : ProgressTracker),
      0 ≤ t.progress_percentage → t.progress_percentage ≤ 100 →
      (0 < t.duration → t.progress_percentage ≤ min 100 (t.current_time / t.duration * 100)) →
      0 ≤ t.current_time →
      List.Chain' (· ≤ ·) (t.current_time :: lines.filterMap parseElapsed) →
      (∀ s ∈ progressStates t lines,
        0 ≤ s.progress_percentage ∧ s.progress_percentage ≤ 100) ∧
      List.Chain' (· ≤ ·)
        ((progressStates t lines).map ProgressTracker.progress_percentage) := by
  intro lines
  induction lines with
  | nil =>
    intro t h0 h100 _ _ _
    constructor
    · intro s hs
      rw [progressStates, List.mem_singleton] at hs
      rw [hs]
      exact ⟨h0, h100⟩
    · exact List.chain'_singleton _
  | cons l ls ih =>
    intro t h0 h100 hle hct hchain
    set t' := parse_progress t l with ht'
    have hstep : t.progress_percentage ≤ t'.progress_percentage ∧
        0 ≤ t'.progress_percentage ∧ t'.progress_percentage ≤ 100 ∧
        (0 < t'.duration →
          t'.progress_percentage ≤ min 100 (t'.current_time / t'.duration * 100)) ∧
        0 ≤ t'.current_time ∧
        List.Chain' (· ≤ ·) (t'.current_time :: ls.filterMap parseElapsed) := by
      cases h : parseElapsed l with
      | none =>
        rw [ht', parse_progress_of_none t h]
        refine ⟨le_refl _, h0, h100, hle, hct, ?_⟩
        rw [List.filterMap_cons, h] at hchain
        exact hchain
      | some e =>
        rw [List.filterMap_cons, h] at hchain
        have hce : t.current_time ≤ e := (List.chain'_cons.mp hchain).1
        have hchain' : List.Chain' (· ≤ ·) (e :: ls.filterMap parseElapsed) :=
          (List.chain'_cons.mp hchain).2
        have he : 0 ≤ e := le_trans hct hce
        rw [ht', parse_progress_of_some t h]
        by_cases hd : 0 < t.duration
        · rw [if_pos hd]
          have hratio : 0 ≤ e / t.duration * 100 := by positivity
          have hmono : t.current_time / t.duration * 100 ≤ e / t.duration * 100 := by
            have := (div_le_div_iff_of_pos_right hd).mpr hce
            nlinarith
          refine ⟨?_, ?_, ?_, ?_, he, hchain'⟩
          · exact le_trans (hle hd) (min_le_min (le_refl 100) hmono)
          · exact le_min (by norm_num) hratio
          · exact min_le_left _ _
          · intro _
            exact le_refl _
        · rw [if_neg hd]
          refine ⟨le_refl _, h0, h100, ?_, he, hchain'⟩
          intro hd'
          exact absurd hd' hd
    obtain ⟨hmono1, h0', h100', hle', hct', hchain''⟩ := hstep
    obtain ⟨hbnd, hchn⟩ := ih t' h0' h100' hle' hct' hchain''
    constructor
    · intro s hs
      rw [progressStates, List.mem_cons] at hs
      rcases hs with hs | hs
      · rw [hs]
        exact ⟨h0, h100⟩
      · exact hbnd s hs
    · show List.Chain' (· ≤ ·) ((progressStates t (l :: ls)).map _)
      rw [progressStates, List.map_cons]
      refine List.chain'_cons'.mpr ⟨?_, hchn⟩
      intro y hy
      have hh : (progressStates t' ls).head? = some t' := progressStates_head t' ls
      rw [List.head?_map, hh] at hy
      rw [Option.map_some'] at hy
      rw [Option.mem_def, Option.some.injEq] at hy
      rw [← hy]
      exact hmono1

/-- C7: once the tracker holds a positive duration, every parsed elapsed
time `e` sets the percentage to `min 100 (e / duration * 100)`; with a
non-positive duration the percentage never moves from its reset value 0;
and over any line sequence whose parsed elapsed times are monotonically
increasing, the percentages of the monitoring loop are monotonically
non-decreasing and always within `[0, 100]`. -/
theorem progress_percentage_spec (d : ℚ) (lines : List String)
    (hmono : List.Chain' (· ≤ ·) (lines.filterMap parseElapsed)) :
    (∀ (t : ProgressTracker) (line : String) (e : ℚ), parseElapsed line = some e →
      (0 < t.duration →
        (parse_progress t line).progress_percentage = min 100 (e / t.duration * 100)) ∧
      (¬ 0 < t.duration →
        (parse_progress t line).progress_percentage = t.progress_percentage)) ∧
    (¬ 0 < d →
      ∀ s ∈ progressStates (resetTracker d) lines, s.progress_percentage = 0) ∧
    (∀ s ∈ progressStates (resetTracker d) lines,
      0 ≤ s.progress_percentage ∧ s.progress_percentage ≤ 100) ∧
    List.Chain' (· ≤ ·)
      ((progressStates (resetTracker d) lines).map ProgressTracker.progress_percentage) := by
  have hchain0 : List.Chain' (· ≤ ·)
      ((resetTracker d).current_time :: lines.filterMap parseElapsed) := by
    refine List.chain'_cons'.mpr ⟨?_, hmono⟩
    intro y hy
    obtain ⟨l, _, hl⟩ := List.mem_filterMap.mp (List.mem_of_mem_head? hy)
    exact parseElapsed_nonneg hl
  have hmain := progressStates_spec lines (resetTracker d) (le_refl 0)
    (by
      show (0 : ℚ) ≤ 100
      norm_num)
    (fun _ => by
      show (0 : ℚ) ≤ min 100 (0 / d * 100)
      rw [zero_div, zero_mul]
      norm_num)
    (le_refl 0) hchain0
  refine ⟨?_, ?_, hmain.1, hmain.2⟩
  · intro t line e he
    constructor
    · intro hd
      rw [parse_progress_of_some t he, if_pos hd]
    · intro hd
      rw [parse_progress_of_some t he, if_neg hd]
  · intro hd s hs
    exact progressStates_pct_const lines (resetTracker d) hd s hs

/-- Elapsed value of the first sample line. -/
lemma parseElapsed_sample1 : parseElapsed "x time=00:00:02.5 b" = some (5 / 2) := by
  have ht : timeSearch "x time=00:00:02.5 b".toList = some (0, 0, 2, ['5']) := by decide
  have hc : containsTimeTok "x time=00:00:02.5 b".toList = true := by decide
  rw [parseElapsed, if_pos hc, ht, Option.map_some']
  simp only [groupElapsed]
  norm_num [show digitsToNat ['5'] = 5 from by decide]

/-- Elapsed value of the third sample line. -/
lemma parseElapsed_sample3 : parseElapsed "time=00:00:07.50 q" = some (15 / 2) := by
  have ht : timeSearch "time=00:00:07.50 q".toList = some (0, 0, 7, ['5', '0']) := by decide
  have hc : containsTimeTok "time=00:00:07.50 q".toList = true := by decide
  rw [parseElapsed, if_pos hc, ht, Option.map_some']
  simp only [groupElapsed]
  norm_num [show digitsToNat ['5', '0'] = 50 from by decide]

/-- Witness for `progress_percentage_spec` on a concrete monitored stream
with duration 10 s and parsed elapsed times 2.5 s then 7.5 s. -/
theorem progress_percentage_witness :
    (∀ (t : ProgressTracker) (line : String) (e : ℚ), parseElapsed line = some e →
      (0 < t.duration →
        (parse_progress t line).progress_percentage = min 100 (e / t.duration * 100)) ∧
      (¬ 0 < t.duration →
        (parse_progress t line).progress_percentage = t.progress_percentage)) ∧
    (¬ 0 < (10 : ℚ) →
      ∀ s ∈ progressStates (resetTracker 10)
        ["x time=00:00:02.5 b", "noise", "time=00:00:07.50 q"],
        s.progress_percentage = 0) ∧
    (∀ s ∈ progressStates (resetTracker 10)
        ["x time=00:00:02.5 b", "noise", "time=00:00:07.50 q"],
      0 ≤ s.progress_percentage ∧ s.progress_percentage ≤ 100) ∧
    List.Chain' (· ≤ ·)
      ((progressStates (resetTracker 10)
        ["x time=00:00:02.5 b", "noise", "time=00:00:07.50 q"]).map
          ProgressTracker.progress_percentage) :=
  progress_percentage_spec 10 ["x time=00:00:02.5 b", "noise", "time=00:00:07.50 q"]
    (by
      have e2 : parseElapsed "noise" = none := by decide
      simp only [List.filterMap_cons, List.filterMap_nil, parseElapsed_sample1, e2,
        parseElapsed_sample3]
      simp only [List.chain'_cons, List.chain'_singleton, and_true]
      norm_num)

/-- Split of a 50 MB / 1000 s file (2.5 times the ceiling): three chunks. -/
lemma split_eval_3chunks : split_audio_file (fun _ => true) 20 50 1000 =
    [⟨0, 0, 360, false⟩, ⟨1, 360, 720, false⟩, ⟨2, 720, 1000, false⟩] := by
  have hc : calculate_chunk_duration 20 50 1000 = 360 := by
    norm_num [calculate_chunk_duration]
  have hceil : ⌈(1000 : ℚ) / 360⌉₊ = 3 := by
    rw [show (1000 : ℚ) / 360 = 25 / 9 by norm_num, Nat.ceil_eq_iff (by norm_num)]
    norm_num
  simp only [split_audio_file, hc]
  rw [if_neg (by norm_num : ¬ (1000 : ℚ) ≤ 360), hceil]
  norm_num [splitLoopAux]

/-- The stub backend of the spec scenario: fails on chunk index 1, succeeds
with distinct texts on chunks 0 and 2. -/
def stubBackend : Backend := fun j =>
  if j = 1 then .error "stub failure"
  else .ok ⟨if j = 0 then "alpha" else "gamma", []⟩

lemma pipeline_eval_stub :
    pipeline_chunk_results stubBackend (.ok ()) (fun _ => true) 20 50 1000 =
      .ok [⟨"alpha", []⟩, ⟨"[Error transcribing chunk 2: stub failure]", []⟩,
           ⟨"gamma", []⟩] := by
  simp only [pipeline_chunk_results, split_eval_3chunks]
  norm_num [transcribe_chunks, List.range_succ, transcribe_chunk, stubBackend]
  refine ⟨by decide, by decide, by decide⟩

lemma scenario_merged :
    transcribe_audio_file stubBackend (.ok ()) (fun _ => true) 50 1000 =
      .ok "alpha \n [Error transcribing chunk 2: stub failure] \n gamma" := by
  rw [transcribe_audio_file, pipeline_eval_stub]
  exact congrArg Except.ok (by decide)

/-- C4: a transcription failure on one chunk never aborts the file: the
result list still has one entry per chunk, the failed chunk's entry is the
inline error marker (which embeds the 1-based chunk number and the failure
reason) with an empty segment list, and every other chunk's entry is exactly
what a backend agreeing outside the failed index produces.  In the spec
scenario (stub backend failing on chunk 1 of 3) the merged transcript keeps
the chunk-0 and chunk-2 texts around the inline marker and the file is still
counted as a batch success. -/
theorem chunk_transcription_failure_isolated (b b' : Backend) (n : Nat) (cd : ℚ)
    (i : Nat) (e : String)
    (hfail : b i = .error e) (hagree : ∀ j, j ≠ i → b j = b' j) :
    (∃ R, transcribe_chunks b (.ok ()) n cd = .ok R ∧ R.length = n ∧
      (i < n → R[i]? = some ⟨errorMarker i e, []⟩) ∧
      (∀ j, j < n → j ≠ i →
        R[j]? = some (transcribe_chunk b' j ((j : ℚ) * cd)))) ∧
    transcribe_audio_file stubBackend (.ok ()) (fun _ => true) 50 1000 =
      .ok "alpha \n [Error transcribing chunk 2: stub failure] \n gamma" ∧
    file_counted_success stubBackend (.ok ()) (fun _ => true) 50 1000 = true := by
  refine ⟨?_, scenario_merged, ?_⟩
  · refine ⟨(List.range n).map fun j => transcribe_chunk b j ((j : ℚ) * cd),
      rfl, by rw [List.length_map, List.length_range], ?_, ?_⟩
    · intro hin
      rw [List.getElem?_map, List.getElem?_range hin, Option.map_some']
      rw [show transcribe_chunk b i ((i : ℚ) * cd) = ⟨errorMarker i e, []⟩ from by
        rw [transcribe_chunk, hfail]]
    · intro j hjn hji
      rw [List.getElem?_map, List.getElem?_range hjn, Option.map_some']
      rw [show transcribe_chunk b j ((j : ℚ) * cd) =
          transcribe_chunk b' j ((j : ℚ) * cd) from by
        rw [transcribe_chunk, transcribe_chunk, hagree j hji]]
  · rw [file_counted_success, scenario_merged]

/-- Witness for `chunk_transcription_failure_isolated` with the stub backend
itself as the failing backend and its all-success variant as the agreeing
backend, on 3 chunks. -/
theorem chunk_transcription_failure_witness :
    (∃ R, transcribe_chunks stubBackend (.ok ()) 3 0 = .ok R ∧ R.length = 3 ∧
      (1 < 3 → R[1]? = some ⟨errorMarker 1 "stub failure", []⟩) ∧
      (∀ j, j < 3 → j ≠ 1 →
        R[j]? = some (transcribe_chunk
          (fun k => .ok ⟨if k = 0 then "alpha" else "gamma", []⟩) j ((j : ℚ) * 0)))) ∧
    transcribe_audio_file stubBackend (.ok ()) (fun _ => true) 50 1000 =
      .ok "alpha \n [Error transcribing chunk 2: stub failure] \n gamma" ∧
    file_counted_success stubBackend (.ok ()) (fun _ => true) 50 1000 = true :=
  chunk_transcription_failure_isolated stubBackend
    (fun k => .ok ⟨if k = 0 then "alpha" else "gamma", []⟩) 3 0 1 "stub failure" rfl
    (fun j hj => by
      rw [stubBackend]
      rw [if_neg hj])

/-- C1 (code bug evidence): on a 60 MB / 3600 s file the splitter's chunks
actually start at offsets 0, 1080, 2160, 3240, but `transcribe_audio_file`
computes `chunk_duration = total_duration / len(chunk_files) = 900` (line
404) and `transcribe_chunks` shifts chunk `i`'s segments by `i * 900`
(lines 360-362) — so the segments of chunks 1-3 are shifted by 900, 1800
and 2700 instead of their actual split start offsets 1080, 2160 and 3240:
the merged timestamps are not positions on the global timeline whenever the
planned chunk duration differs from the average `D / n`. -/
theorem timestamp_shift_uses_average_not_split_offset :
    (split_audio_file (fun _ => true) 20 60 3600).map Chunk.start =
      [0, 1080, 2160, 3240] ∧
    pipeline_chunk_results (fun _ => Except.ok ⟨"t", [⟨0, 1, "s"⟩]⟩) (Except.ok ())
      (fun _ => true) 20 60 3600 =
      Except.ok [⟨"t", [⟨0, 1, "s"⟩]⟩, ⟨"t", [⟨900, 901, "s"⟩]⟩,
                 ⟨"t", [⟨1800, 1801, "s"⟩]⟩, ⟨"t", [⟨2700, 2701, "s"⟩]⟩] ∧
    ((900 : ℚ) ≠ 1080 ∧ (1800 : ℚ) ≠ 2160 ∧ (2700 : ℚ) ≠ 3240) := by
  refine ⟨by rw [split_eval_scenario]; rfl, ?_, by norm_num⟩
  have hclean : cleanText "t" = "t" := by rfl
  simp only [pipeline_chunk_results, split_eval_scenario]
  norm_num [transcribe_chunks, List.range_succ, transcribe_chunk, hclean]

end VideoToText
